import Mathlib

/-!
Shallow embedding of the Performance Index Engine from
`unified_performance_index_standardized.js` (class `UnifiedPerformanceIndex`).

Modelling conventions:
* JavaScript numbers are modelled as rationals (`ℚ`); timestamps are
  milliseconds on an abstract integer timeline (`ℤ`).
* `Math.round` is round-half-toward-positive-infinity (`jsRound`).
* Optional / possibly-missing record fields are `Option` values; JavaScript
  truthiness (`x || fallback`, where `0`, `""` and `undefined` are falsy) is
  made explicit through the `qTruthy` / `zTruthy` / `sTruthy` helpers.
* The ambient clock and the calendar-month boundaries that the source derives
  from `new Date()` are passed in explicitly as a `Calendar` value; thirty
  "calendar days" are modelled as `30 * dayMs` on the abstract timeline, and
  `Date.prototype.toDateString` (the calendar-day key used for deduplication)
  is modelled as flooring division of the timestamp by `dayMs`.
* The `localStorage`-backed stores are modelled by passing the parsed workout
  list and the parsed per-user history list as explicit arguments and
  returning the list that would be persisted.
-/

/-- Milliseconds per day (`24 * 60 * 60 * 1000`). -/
def dayMs : ℤ := 86400000

/-- `this.MAX_HISTORY_DAYS` from the constructor. -/
def MAX_HISTORY_DAYS : ℤ := 90

/-- JavaScript `Math.round`: round half toward positive infinity. -/
def jsRound (x : ℚ) : ℤ := (x + 1/2).floor

/-- `Math.max(0, Math.min(100, x))` as used by the component clamp and the
aggregate score. -/
def clamp100 (x : ℚ) : ℚ := max 0 (min 100 x)

/-- JavaScript truthiness for an optional number: `0` and `undefined` are
falsy. -/
def qTruthy : Option ℚ → Option ℚ
  | some x => if x = 0 then none else some x
  | none => none

/-- JavaScript truthiness for an optional timestamp number. -/
def zTruthy : Option ℤ → Option ℤ
  | some t => if t = 0 then none else some t
  | none => none

/-- JavaScript truthiness for an optional string: `""` and `undefined` are
falsy. -/
def sTruthy : Option String → Option String
  | some s => if s = "" then none else some s
  | none => none

/-- `String.prototype.toLowerCase()` (ASCII case folding, which covers every
activity and gender tag the engine compares against). -/
def jsToLower (s : String) : String := ⟨s.data.map Char.toLower⟩

/-- One record of the `workoutHistory` array.  Every field the engine reads is
optional, mirroring the duck-typed JavaScript objects. -/
structure Workout where
  activity : Option String := none
  workoutType : Option String := none
  type : Option String := none
  date : Option ℤ := none
  timestamp : Option ℤ := none
  duration : Option ℚ := none
  calories : Option ℚ := none
  caloriesBurned : Option ℚ := none
  heartRate : Option ℚ := none
  age : Option ℚ := none
  weight : Option ℚ := none
  gender : Option String := none
deriving DecidableEq

/-- The five component scores (`components` object). -/
structure Components where
  consistency : ℚ
  performance : ℚ
  improvement : ℚ
  variety : ℚ
  intensity : ℚ
deriving DecidableEq

/-- One entry of the persisted `performanceIndexHistory_{userId}` list, as
pushed by `saveToHistory`. -/
structure HistoryEntry where
  score : ℤ
  level : String
  components : Components
  trend : String
  timestamp : ℤ
  workoutCount : ℕ
deriving DecidableEq

/-- The object returned by `compareWithPrevious`. -/
structure Comparison where
  current : ℤ
  previous : ℤ
  difference : ℤ
  percentChange : ℚ
  trend : String
deriving DecidableEq

/-- The `periodData` object returned by `getPeriodComparisons`. -/
structure PeriodData where
  weekly : Option Comparison
  monthly : Option Comparison
deriving DecidableEq

/-- The `benchmarksMet` object returned by `getBenchmarkStatus`. -/
structure Benchmarks where
  consistency : String
  performance : String
  improvement : String
  variety : String
  intensity : String
deriving DecidableEq

/-- The full result object of `calculateIndex`.  `benchmarksMet` is optional
because the default index produced by `getDefaultIndex` omits it. -/
structure IndexData where
  score : ℤ
  displayScore : ℤ
  level : String
  components : Components
  trend : String
  lastUpdated : ℤ
  workoutCount : ℕ
  periodData : PeriodData
  benchmarksMet : Option Benchmarks
deriving DecidableEq

/-- The clock values the source derives from `new Date()`: the current time
and the calendar-month boundaries used by the improvement scorer. -/
structure Calendar where
  now : ℤ
  currentMonthStart : ℤ
  previousMonthStart : ℤ
  previousMonthEnd : ℤ

/-- One row of `this.performanceLevels`. -/
structure PerfLevel where
  min : ℤ
  max : ℤ
  level : String
deriving DecidableEq

/-- `this.performanceLevels` from the constructor. -/
def performanceLevels : List PerfLevel :=
  [⟨90, 100, "Elite Athlete"⟩,
   ⟨75, 89, "Advanced"⟩,
   ⟨60, 74, "Intermediate"⟩,
   ⟨45, 59, "Developing"⟩,
   ⟨30, 44, "Beginner"⟩,
   ⟨15, 29, "Getting Started"⟩,
   ⟨0, 14, "New User"⟩]

/-- `this.weights` from the constructor. -/
structure Weights where
  consistency : ℚ
  performance : ℚ
  improvement : ℚ
  variety : ℚ
  intensity : ℚ

def weights : Weights :=
  { consistency := 0.25
    performance := 0.25
    improvement := 0.20
    variety := 0.15
    intensity := 0.15 }

/-- `this.metValues[activity] || 7.0` (all table entries are truthy, so only a
missing key falls through to 7.0). -/
def metValue (activity : String) : ℚ :=
  if activity = "running" then 11.0
  else if activity = "cycling" then 8.0
  else if activity = "swimming" then 10.0
  else if activity = "weightlifting" then 6.0
  else if activity = "boxing" then 12.0
  else if activity = "walking" then 3.8
  else if activity = "yoga" then 2.5
  else 7.0

/-- `workout.calories || workout.caloriesBurned || 0`. -/
def getCalories (w : Workout) : ℚ :=
  match qTruthy w.calories with
  | some c => c
  | none =>
    match qTruthy w.caloriesBurned with
    | some c => c
    | none => 0

/-- `new Date(workout.date || workout.timestamp)`: `none` stands for the
Invalid Date produced when both fields are absent (note that a falsy `date`
falls through to `timestamp` even when `timestamp` is `0`). -/
def getWorkoutTime (w : Workout) : Option ℤ :=
  match zTruthy w.date with
  | some t => some t
  | none => w.timestamp

/-- `workoutDate >= cutoff`; comparison with an Invalid Date is false. -/
def timeGE (t : Option ℤ) (cutoff : ℤ) : Bool :=
  match t with
  | some t => decide (cutoff ≤ t)
  | none => false

/-- `workoutDate >= lo && workoutDate <= hi`; false for an Invalid Date. -/
def timeInRangeB (t : Option ℤ) (lo hi : ℤ) : Bool :=
  match t with
  | some t => decide (lo ≤ t ∧ t ≤ hi)
  | none => false

/-- `array.slice(-n)` for `n > 0`: the last `n` elements. -/
def takeLast (n : ℕ) (l : List α) : List α := l.drop (l.length - n)

/-- Method `calculateStandardizedConsistency`. -/
def calculateStandardizedConsistency (now : ℤ) (workoutHistory : List Workout) : ℚ :=
  let thirtyDaysAgo := now - 30 * dayMs
  let recentWorkouts := workoutHistory.filter (fun w => timeGE (getWorkoutTime w) thirtyDaysAgo)
  let workoutsLast30Days : ℚ := recentWorkouts.length
  let consistencyScore := (workoutsLast30Days / 30) * 100
  if recentWorkouts.length < 3 then (workoutsLast30Days / 3) * 10
  else min 100 consistencyScore

/-- Method `getStandardizedTargetCalories`.  The `age > 65` branch is kept
exactly as in the source, where it is shadowed by the preceding
`else if (age > 50)` branch. -/
def getStandardizedTargetCalories (workout : Workout) : ℤ :=
  let age := (qTruthy workout.age).getD 25
  let weight := (qTruthy workout.weight).getD 70
  let gender := (sTruthy workout.gender).getD "male"
  let duration := (qTruthy workout.duration).getD 30
  let activity := (sTruthy workout.activity).getD ((sTruthy workout.workoutType).getD "running")
  let met := metValue (jsToLower activity)
  let baseTarget := met * weight * (duration / 60)
  let adjustment : ℚ :=
    (if age < 20 then 1.1
     else if age > 50 then 0.9
     else if age > 65 then 0.8
     else 1.0) *
    (if jsToLower gender = "male" then 1.1 else 1.0)
  jsRound (baseTarget * adjustment)

/-- Method `calculateStandardizedPerformance`. -/
def calculateStandardizedPerformance (workoutHistory : List Workout) : ℚ :=
  if workoutHistory.length = 0 then 50
  else
    let recentWorkouts := takeLast 10 workoutHistory
    let totalActualCalories := (recentWorkouts.map getCalories).sum
    let totalTargetCalories :=
      (recentWorkouts.map (fun w => ((getStandardizedTargetCalories w : ℤ) : ℚ))).sum
    if totalTargetCalories = 0 then 50
    else min 100 ((totalActualCalories / totalTargetCalories) * 100)

/-- Method `getAverageCalories`. -/
def getAverageCalories (workouts : List Workout) : ℚ :=
  if workouts.length = 0 then 0
  else (workouts.map getCalories).sum / workouts.length

/-- Method `calculateStandardizedImprovement`. -/
def calculateStandardizedImprovement (cal : Calendar) (workoutHistory : List Workout) : ℚ :=
  if workoutHistory.length < 2 then 50
  else
    let currentMonthWorkouts :=
      workoutHistory.filter (fun w => timeGE (getWorkoutTime w) cal.currentMonthStart)
    let previousMonthWorkouts :=
      workoutHistory.filter
        (fun w => timeInRangeB (getWorkoutTime w) cal.previousMonthStart cal.previousMonthEnd)
    if previousMonthWorkouts.length = 0 then 50
    else
      let currentAvg := getAverageCalories currentMonthWorkouts
      let previousAvg := getAverageCalories previousMonthWorkouts
      if previousAvg = 0 then 50
      else
        let improvementPercent := ((currentAvg - previousAvg) / previousAvg) * 100
        let scaledImprovement := (improvementPercent / 5) * 100
        if improvementPercent < 0 then max 0 (50 + scaledImprovement)
        else min 100 (50 + scaledImprovement)

/-- Method `calculateStandardizedVariety`. -/
def calculateStandardizedVariety (now : ℤ) (workoutHistory : List Workout) : ℚ :=
  let thirtyDaysAgo := now - 30 * dayMs
  let recentWorkouts := workoutHistory.filter (fun w => timeGE (getWorkoutTime w) thirtyDaysAgo)
  if recentWorkouts.length = 0 then 0
  else
    let uniqueTypes :=
      (recentWorkouts.map (fun w =>
        jsToLower ((sTruthy w.activity).getD
          ((sTruthy w.workoutType).getD ((sTruthy w.type).getD "unknown"))))).dedup
    let varietyScore := ((uniqueTypes.length : ℚ) / 7) * 100
    min 100 varietyScore

/-- Method `estimateHeartRate`. -/
def estimateHeartRate (workout : Workout) : ℚ :=
  let age := (qTruthy workout.age).getD 25
  let activity := (sTruthy workout.activity).getD ((sTruthy workout.workoutType).getD "running")
  let duration := (qTruthy workout.duration).getD 30
  let maxHeartRate := 220 - age
  let intensityPercent : ℚ :=
    if jsToLower activity = "running" then 0.75 + (if duration > 30 then 0.1 else 0)
    else if jsToLower activity = "cycling" then 0.70
    else if jsToLower activity = "swimming" then 0.80
    else if jsToLower activity = "weightlifting" then 0.65
    else if jsToLower activity = "boxing" then 0.85
    else if jsToLower activity = "walking" then 0.55
    else if jsToLower activity = "yoga" then 0.45
    else 0.7
  (jsRound (maxHeartRate * intensityPercent) : ℚ)

/-- Method `getHeartRateZoneScore`. -/
def getHeartRateZoneScore (hrPercentage : ℚ) : ℚ :=
  if 50 ≤ hrPercentage ∧ hrPercentage < 60 then 20
  else if 60 ≤ hrPercentage ∧ hrPercentage < 70 then 40
  else if 70 ≤ hrPercentage ∧ hrPercentage < 80 then 70
  else if 80 ≤ hrPercentage ∧ hrPercentage < 90 then 90
  else if 90 ≤ hrPercentage then 100
  else 10

/-- Method `calculateStandardizedIntensity` (the `forEach` loop is a fold over
a running `(totalIntensityScore, workoutCount)` pair). -/
def calculateStandardizedIntensity (workoutHistory : List Workout) : ℚ :=
  if workoutHistory.length = 0 then 50
  else
    let recentWorkouts := takeLast 10 workoutHistory
    let acc := recentWorkouts.foldl
      (fun (acc : ℚ × ℕ) workout =>
        let heartRate := (qTruthy workout.heartRate).getD (estimateHeartRate workout)
        let age := (qTruthy workout.age).getD 25
        let maxHeartRate := 220 - age
        if 0 < heartRate ∧ 0 < maxHeartRate then
          (acc.1 + getHeartRateZoneScore ((heartRate / maxHeartRate) * 100), acc.2 + 1)
        else acc)
      ((0 : ℚ), (0 : ℕ))
    if acc.2 = 0 then 50
    else acc.1 / (acc.2 : ℚ)

/-- Method `calculateStandardizedComponents`: each raw score is clamped to
[0,100] and rounded. -/
def calculateStandardizedComponents (cal : Calendar) (workoutHistory : List Workout) : Components :=
  { consistency := (jsRound (clamp100 (calculateStandardizedConsistency cal.now workoutHistory)) : ℚ)
    performance := (jsRound (clamp100 (calculateStandardizedPerformance workoutHistory)) : ℚ)
    improvement := (jsRound (clamp100 (calculateStandardizedImprovement cal workoutHistory)) : ℚ)
    variety := (jsRound (clamp100 (calculateStandardizedVariety cal.now workoutHistory)) : ℚ)
    intensity := (jsRound (clamp100 (calculateStandardizedIntensity workoutHistory)) : ℚ) }

/-- Method `calculateStandardizedScore`. -/
def calculateStandardizedScore (components : Components) : ℤ :=
  let weightedScore :=
    components.consistency * weights.consistency +
    components.performance * weights.performance +
    components.improvement * weights.improvement +
    components.variety * weights.variety +
    components.intensity * weights.intensity
  jsRound (clamp100 weightedScore)

/-- The `for (const level of this.performanceLevels)` loop in
`getStandardizedPerformanceLevel`, with the `'New User'` fallback after the
loop. -/
def levelLookup : List PerfLevel → ℤ → String
  | [], _ => "New User"
  | l :: rest, score => if l.min ≤ score ∧ score ≤ l.max then l.level else levelLookup rest score

/-- Method `getStandardizedPerformanceLevel`. -/
def getStandardizedPerformanceLevel (score : ℤ) : String :=
  levelLookup performanceLevels score

/-- Method `validateMetricInputs`, reduced to its `isValid` flag (the input is
already a well-typed list, so the `Array.isArray` failure cannot arise; the
`reason` string is dropped). -/
def validateMetricInputs (workoutHistory : List Workout) : Bool :=
  match workoutHistory.getLast? with
  | none => true
  | some recentWorkout =>
    ((qTruthy recentWorkout.calories).isSome || (qTruthy recentWorkout.caloriesBurned).isSome) &&
    ((zTruthy recentWorkout.date).isSome || (zTruthy recentWorkout.timestamp).isSome)

/-- Method `getIndexHistory`: filter the persisted list to entries strictly
newer than `now - days` days (parse failures of the store are modelled by the
caller passing an empty list). -/
def getIndexHistory (now : ℤ) (stored : List HistoryEntry) (days : ℤ) : List HistoryEntry :=
  let cutoffDate := now - days * dayMs
  stored.filter (fun e => decide (cutoffDate < e.timestamp))

/-- Method `calculateTrend` (its `currentScore` parameter is unused in the
source, so it is omitted). -/
def calculateTrend (now : ℤ) (stored : List HistoryEntry) : String :=
  let history := getIndexHistory now stored 14
  if history.length < 3 then "stable"
  else
    let recentScores := (takeLast 5 history).map (fun h => h.score)
    let olderScores := (history.take (Nat.max 1 (history.length - 5))).map (fun h => h.score)
    let recentAvg := ((recentScores.map (fun s => (s : ℚ))).sum) / (recentScores.length : ℚ)
    let olderAvg := ((olderScores.map (fun s => (s : ℚ))).sum) / (olderScores.length : ℚ)
    let diff := recentAvg - olderAvg
    if diff > 5 then "improving"
    else if diff < -5 then "declining"
    else "stable"

/-- `Number.prototype.toFixed(1)` followed by `parseFloat`: round to one
decimal place. -/
def toFixed1 (x : ℚ) : ℚ := (jsRound (x * 10) : ℚ) / 10

/-- Method `compareWithPrevious`.  The final `_, _` case is unreachable after
the length checks; it models the `try/catch` returning `null` if the indexing
were to fail. -/
def compareWithPrevious (now : ℤ) (stored : List HistoryEntry) (days : ℤ) : Option Comparison :=
  let history := getIndexHistory now stored (days * 2)
  if history.length < 2 then none
  else
    let cutoffDate := now - days * dayMs
    let previousEntries := history.filter (fun e => decide (e.timestamp < cutoffDate))
    if previousEntries.length = 0 then none
    else
      match history.getLast?, previousEntries.getLast? with
      | some currentEntry, some previousEntry =>
        let difference := currentEntry.score - previousEntry.score
        let percentChange : ℚ :=
          if previousEntry.score > 0 then
            toFixed1 (((difference : ℚ) / (previousEntry.score : ℚ)) * 100)
          else 0
        some
          { current := currentEntry.score
            previous := previousEntry.score
            difference := difference
            percentChange := percentChange
            trend :=
              if difference > 0 then "improving"
              else if difference < 0 then "declining"
              else "stable" }
      | _, _ => none

/-- Method `getPeriodComparisons`. -/
def getPeriodComparisons (now : ℤ) (stored : List HistoryEntry) : PeriodData :=
  { weekly := compareWithPrevious now stored 7
    monthly := compareWithPrevious now stored 30 }

/-- Method `getBenchmarkStatus`. -/
def getBenchmarkStatus (components : Components) : Benchmarks :=
  { consistency :=
      if components.consistency ≥ 80 then "Excellent"
      else if components.consistency ≥ 60 then "Good"
      else if components.consistency ≥ 40 then "Fair"
      else "Needs Improvement"
    performance :=
      if components.performance ≥ 90 then "Excellent"
      else if components.performance ≥ 70 then "Good"
      else if components.performance ≥ 50 then "Fair"
      else "Needs Improvement"
    improvement :=
      if components.improvement ≥ 70 then "Strong Growth"
      else if components.improvement ≥ 50 then "Steady"
      else if components.improvement ≥ 30 then "Slow Growth"
      else "Declining"
    variety :=
      if components.variety ≥ 60 then "Excellent"
      else if components.variety ≥ 40 then "Good"
      else if components.variety ≥ 20 then "Fair"
      else "Limited"
    intensity :=
      if components.intensity ≥ 80 then "High"
      else if components.intensity ≥ 60 then "Moderate"
      else if components.intensity ≥ 40 then "Light"
      else "Very Light" }

/-- Method `getDefaultIndex` (note: its object literal has no `benchmarksMet`
field). -/
def getDefaultIndex (now : ℤ) : IndexData :=
  { score := 0
    displayScore := 0
    level := "Getting Started"
    components :=
      { consistency := 0
        performance := 0
        improvement := 50
        variety := 0
        intensity := 0 }
    trend := "stable"
    lastUpdated := now
    workoutCount := 0
    periodData := { weekly := none, monthly := none }
    benchmarksMet := none }

/-- Method `calculateIndex`, as a pure function of the parsed workout history
and the parsed per-user snapshot history.  The `catch`-path for store
failures is an externality of the embedding; the in-language validation
failure path returning `getDefaultIndex` is modelled exactly. -/
def calculateIndex (cal : Calendar) (workoutHistory : List Workout)
    (stored : List HistoryEntry) : IndexData :=
  if validateMetricInputs workoutHistory then
    let components := calculateStandardizedComponents cal workoutHistory
    let score := calculateStandardizedScore components
    let level := getStandardizedPerformanceLevel score
    let trend := calculateTrend cal.now stored
    let periodData := getPeriodComparisons cal.now stored
    { score := score
      displayScore := score
      level := level
      components := components
      trend := trend
      lastUpdated := cal.now
      workoutCount := workoutHistory.length
      periodData := periodData
      benchmarksMet := some (getBenchmarkStatus components) }
  else getDefaultIndex cal.now

/-- `new Date(t).toDateString()` as a calendar-day key: the (UTC) day index
of the timestamp. -/
def dayKey (t : ℤ) : ℤ := t.fdiv dayMs

/-- `Map.prototype.set` on an insertion-ordered association list: replace in
place if the key is present, append otherwise. -/
def dayMapSet : List (ℤ × HistoryEntry) → ℤ → HistoryEntry → List (ℤ × HistoryEntry)
  | [], k, v => [(k, v)]
  | (k', v') :: rest, k, v =>
    if k' = k then (k, v) :: rest else (k', v') :: dayMapSet rest k v

/-- `Map.prototype.get`. -/
def dayMapGet : List (ℤ × HistoryEntry) → ℤ → Option HistoryEntry
  | [], _ => none
  | (k', v') :: rest, k => if k' = k then some v' else dayMapGet rest k

/-- The body of the `history.forEach` loop in `dedupeDailyEntries`: keep the
entry with the strictly later timestamp for each calendar day. -/
def dedupeStep (m : List (ℤ × HistoryEntry)) (entry : HistoryEntry) :
    List (ℤ × HistoryEntry) :=
  let dateKey := dayKey entry.timestamp
  match dayMapGet m dateKey with
  | none => dayMapSet m dateKey entry
  | some existing =>
    if existing.timestamp < entry.timestamp then dayMapSet m dateKey entry else m

/-- Method `dedupeDailyEntries`: collapse to one entry per calendar day, then
sort ascending by timestamp (`Array.prototype.sort` is stable; `mergeSort`
models it). -/
def dedupeDailyEntries (history : List HistoryEntry) : List HistoryEntry :=
  ((history.foldl dedupeStep []).map Prod.snd).mergeSort
    (fun a b => decide (a.timestamp ≤ b.timestamp))

/-- The entry object pushed by `saveToHistory`. -/
def historyEntryOf (indexData : IndexData) : HistoryEntry :=
  { score := indexData.score
    level := indexData.level
    components := indexData.components
    trend := indexData.trend
    timestamp := indexData.lastUpdated
    workoutCount := indexData.workoutCount }

/-- Method `saveToHistory`: push the new entry, evict entries at or beyond 90
days of age, deduplicate per calendar day, and return the list that is
persisted back. -/
def saveToHistory (now : ℤ) (stored : List HistoryEntry) (indexData : IndexData) :
    List HistoryEntry :=
  let history := stored ++ [historyEntryOf indexData]
  let cutoffDate := now - MAX_HISTORY_DAYS * dayMs
  let history := history.filter (fun e => decide (cutoffDate < e.timestamp))
  dedupeDailyEntries history

/-! ## Basic lemmas about the numeric helpers -/

theorem jsRound_eq_floor (x : ℚ) : jsRound x = ⌊x + 1/2⌋ := by
  rw [jsRound, Rat.floor_def, Rat.floor_def']

theorem jsRound_eval {x : ℚ} {z : ℤ} (h1 : (z : ℚ) ≤ x + 1/2) (h2 : x + 1/2 < z + 1) :
    jsRound x = z := by
  rw [jsRound_eq_floor]
  exact Int.floor_eq_iff.mpr ⟨h1, h2⟩

theorem jsRound_intCast (z : ℤ) : jsRound (z : ℚ) = z :=
  jsRound_eval (by norm_num) (by norm_num)

theorem clamp100_nonneg (x : ℚ) : 0 ≤ clamp100 x := le_max_left 0 _

theorem clamp100_le (x : ℚ) : clamp100 x ≤ 100 :=
  max_le (by norm_num) (min_le_left 100 x)

theorem jsRound_clamp100_nonneg (x : ℚ) : 0 ≤ jsRound (clamp100 x) := by
  rw [jsRound_eq_floor]
  have := clamp100_nonneg x
  have : (0 : ℚ) ≤ clamp100 x + 1/2 := by linarith
  exact_mod_cast Int.le_floor.mpr (by exact_mod_cast this)

theorem jsRound_clamp100_le (x : ℚ) : jsRound (clamp100 x) ≤ 100 := by
  rw [jsRound_eq_floor]
  have h : clamp100 x + 1/2 < (((101 : ℤ) : ℚ)) := by
    have := clamp100_le x
    push_cast
    linarith
  have := Int.floor_lt.mpr h
  omega

theorem jsRound_clamp100_of_le {x : ℚ} (h0 : 0 ≤ x) (h100 : x ≤ 100) :
    jsRound (clamp100 x) = jsRound x := by
  unfold clamp100
  rw [min_eq_right h100, max_eq_right h0]

/-! ## C3: the aggregate score formula -/

/-- Spec-side aggregator, following the words of spec §4.2 / §8:
`score = round(clamp(0.25*consistency + 0.25*performance + 0.20*improvement +
0.15*variety + 0.15*intensity, 0, 100))`. -/
def specAggregateScore (c : Components) : ℤ :=
  jsRound (clamp100
    (0.25 * c.consistency + 0.25 * c.performance + 0.20 * c.improvement +
     0.15 * c.variety + 0.15 * c.intensity))

/-- All five components lie in [0, 100]. -/
def ComponentsInRange (c : Components) : Prop :=
  (0 ≤ c.consistency ∧ c.consistency ≤ 100) ∧
  (0 ≤ c.performance ∧ c.performance ≤ 100) ∧
  (0 ≤ c.improvement ∧ c.improvement ≤ 100) ∧
  (0 ≤ c.variety ∧ c.variety ≤ 100) ∧
  (0 ≤ c.intensity ∧ c.intensity ≤ 100)

/-- C3: for every ComponentScores value (five components each in [0,100]), the
aggregate score of `calculateStandardizedScore` equals
`round(clamp(0.25*consistency + 0.25*performance + 0.20*improvement +
0.15*variety + 0.15*intensity, 0, 100))`, as the spec states it. -/
theorem c3_score_matches_spec_formula (c : Components) (_h : ComponentsInRange c) :
    calculateStandardizedScore c = specAggregateScore c := by
  unfold calculateStandardizedScore specAggregateScore weights
  ring_nf

theorem c3_witness :
    ComponentsInRange ⟨50, 60, 70, 80, 90⟩ ∧
    calculateStandardizedScore ⟨50, 60, 70, 80, 90⟩ = specAggregateScore ⟨50, 60, 70, 80, 90⟩ :=
  ⟨by norm_num [ComponentsInRange], c3_score_matches_spec_formula _ (by norm_num [ComponentsInRange])⟩

/-! ## C2: the level label always matches the score range -/

/-- C2 (amended): every result produced through the successful calculation
path carries the unique performance-level label whose range contains its
score, and over the integer scores 0..100 the seven ranges are contiguous,
exhaustive and mutually exclusive (exactly one row matches each score, and
`getStandardizedPerformanceLevel` returns that row's label).  The default
index returned when a failure is caught is the exception, see the
counterexample. -/
theorem c2_level_matches_score_amended :
    (∀ cal hist stored, validateMetricInputs hist = true →
      (calculateIndex cal hist stored).level =
        getStandardizedPerformanceLevel (calculateIndex cal hist stored).score) ∧
    (∀ s : ℤ, 0 ≤ s → s ≤ 100 →
      (performanceLevels.filter (fun l => decide (l.min ≤ s ∧ s ≤ l.max))).map PerfLevel.level
        = [getStandardizedPerformanceLevel s]) := by
  constructor
  · intro cal hist stored h
    simp [calculateIndex, h]
  · intro s h1 h2
    interval_cases s <;> decide

/-- C2 does not hold for the default index: its score 0 falls in the
"New User" range but it is labelled "Getting Started". -/
theorem c2_counterexample :
    (getDefaultIndex 0).score = 0 ∧
    getStandardizedPerformanceLevel 0 = "New User" ∧
    (getDefaultIndex 0).level ≠ getStandardizedPerformanceLevel (getDefaultIndex 0).score :=
  ⟨rfl, by decide, by decide⟩

theorem c2_witness :
    (calculateIndex ⟨0, 0, 0, 0⟩ [] []).level =
      getStandardizedPerformanceLevel (calculateIndex ⟨0, 0, 0, 0⟩ [] []).score :=
  c2_level_matches_score_amended.1 ⟨0, 0, 0, 0⟩ [] [] rfl

/-! ## C1: behaviour on an empty workout history -/

theorem consistency_nil (now : ℤ) : calculateStandardizedConsistency now [] = 0 := by
  norm_num [calculateStandardizedConsistency]

theorem performance_nil : calculateStandardizedPerformance [] = 50 := by
  norm_num [calculateStandardizedPerformance]

theorem improvement_nil (cal : Calendar) : calculateStandardizedImprovement cal [] = 50 := by
  norm_num [calculateStandardizedImprovement]

theorem variety_nil (now : ℤ) : calculateStandardizedVariety now [] = 0 := by
  norm_num [calculateStandardizedVariety]

theorem intensity_nil : calculateStandardizedIntensity [] = 50 := by
  norm_num [calculateStandardizedIntensity]

theorem jsRound_clamp100_zero : jsRound (clamp100 0) = 0 := by
  rw [jsRound_clamp100_of_le (by norm_num) (by norm_num)]
  exact jsRound_eval (by norm_num) (by norm_num)

theorem jsRound_clamp100_fifty : jsRound (clamp100 50) = 50 := by
  rw [jsRound_clamp100_of_le (by norm_num) (by norm_num)]
  exact jsRound_eval (by norm_num) (by norm_num)

theorem components_nil (cal : Calendar) :
    calculateStandardizedComponents cal [] = ⟨0, 50, 50, 0, 50⟩ := by
  unfold calculateStandardizedComponents
  rw [consistency_nil, performance_nil, improvement_nil, variety_nil, intensity_nil,
    jsRound_clamp100_zero, jsRound_clamp100_fifty]
  norm_num

theorem calculateStandardizedScore_def (c : Components) :
    calculateStandardizedScore c =
      jsRound (clamp100 (c.consistency * 0.25 + c.performance * 0.25 +
        c.improvement * 0.20 + c.variety * 0.15 + c.intensity * 0.15)) := rfl

theorem score_components_nil : calculateStandardizedScore ⟨0, 50, 50, 0, 50⟩ = 30 := by
  rw [calculateStandardizedScore_def]
  dsimp only
  have h : ((0 : ℚ) * 0.25 + 50 * 0.25 + 50 * 0.20 + 0 * 0.15 + 50 * 0.15) = 30 := by norm_num
  rw [h, jsRound_clamp100_of_le (by norm_num) (by norm_num)]
  exact jsRound_eval (by norm_num) (by norm_num)

theorem level_thirty : getStandardizedPerformanceLevel 30 = "Beginner" := by decide

theorem calculateTrend_nil (now : ℤ) : calculateTrend now [] = "stable" := by
  norm_num [calculateTrend, getIndexHistory]

theorem compareWithPrevious_nil (now days : ℤ) : compareWithPrevious now [] days = none := by
  norm_num [compareWithPrevious, getIndexHistory]

theorem calculateIndex_nil_score (cal : Calendar) : (calculateIndex cal [] []).score = 30 := by
  simp [calculateIndex, validateMetricInputs, components_nil, score_components_nil]

theorem calculateIndex_nil_level (cal : Calendar) :
    (calculateIndex cal [] []).level = "Beginner" := by
  simp [calculateIndex, validateMetricInputs, components_nil, score_components_nil, level_thirty]

theorem calculateIndex_nil_trend (cal : Calendar) :
    (calculateIndex cal [] []).trend = "stable" := by
  simp [calculateIndex, validateMetricInputs, calculateTrend_nil]

/-- C1 (amended): for a new user — empty workout history and no prior
snapshot history — `calculateIndex` returns score 30, level "Beginner" and
trend "stable" (the neutral 50-point defaults of the performance, improvement
and intensity scorers put a brand-new user at 30 points, not at or below 14). -/
theorem c1_new_user_amended (cal : Calendar) :
    (calculateIndex cal [] []).score = 30 ∧
    (calculateIndex cal [] []).level = "Beginner" ∧
    (calculateIndex cal [] []).trend = "stable" :=
  ⟨calculateIndex_nil_score cal, calculateIndex_nil_level cal, calculateIndex_nil_trend cal⟩

/-- C1 as stated is false: with an empty workout history the score is 30 > 14
and the level is "Beginner", not "New User". -/
theorem c1_counterexample :
    ¬ ((calculateIndex ⟨0, 0, 0, 0⟩ [] []).score ≤ 14 ∧
       (calculateIndex ⟨0, 0, 0, 0⟩ [] []).level = "New User") := by
  intro h
  rw [calculateIndex_nil_score] at h
  omega

/-! ## C5: the age adjustment for subjects older than 65 -/

/-- C5: the claim says a subject older than 65 gets age factor 0.8, but in the
source the `age > 65` branch is unreachable (it sits behind
`else if (age > 50)`), so age 70 gets factor 0.9: the target for a 70-year-old
male running 60 minutes at 70 kg is `round(11*70*1*0.9*1.1) = 762`, whereas
the claimed 0.8 factor would give `round(11*70*1*0.8*1.1) = 678`. -/
theorem c5_age_over_65_uses_09_not_08 :
    getStandardizedTargetCalories
      { age := some 70, weight := some 70, duration := some 60,
        activity := some "running", gender := some "male" } = 762 ∧
    jsRound (11.0 * 70 * (60 / 60) * (0.8 * 1.1)) = 678 := by
  constructor
  · unfold getStandardizedTargetCalories
    have hr : jsToLower "running" = "running" := rfl
    have hm : jsToLower "male" = "male" := rfl
    norm_num [qTruthy]
    simp only [sTruthy, if_neg, Option.getD_some, hr, hm]
    simp [metValue]
    simp [hr, hm]
    exact jsRound_eval (by norm_num) (by norm_num)
  · exact jsRound_eval (by norm_num) (by norm_num)

/-! ## C4: when compareWithPrevious yields no comparison -/

/-- C4 (amended): `compareWithPrevious` returns null exactly when fewer than
two entries are loaded from the `2*days` window or the "previous" partition
(loaded entries with timestamp before `now - days`) is empty; an empty
remainder partition does not by itself produce null. -/
theorem c4_compare_none_iff (now : ℤ) (stored : List HistoryEntry) (days : ℤ) :
    compareWithPrevious now stored days = none ↔
      ((getIndexHistory now stored (days * 2)).length < 2 ∨
       ((getIndexHistory now stored (days * 2)).filter
         (fun e => decide (e.timestamp < now - days * dayMs))).length = 0) := by
  unfold compareWithPrevious
  by_cases h1 : (getIndexHistory now stored (days * 2)).length < 2
  · simp [h1]
  · simp only [h1, if_false]
    by_cases h2 : ((getIndexHistory now stored (days * 2)).filter
        (fun e => decide (e.timestamp < now - days * dayMs))).length = 0
    · simp [h2]
    · have hne : getIndexHistory now stored (days * 2) ≠ [] := by
        intro he
        rw [he] at h1
        simp at h1
      have hne2 : (getIndexHistory now stored (days * 2)).filter
          (fun e => decide (e.timestamp < now - days * dayMs)) ≠ [] := by
        intro he
        rw [he] at h2
        simp at h2
      obtain ⟨c, hc⟩ := Option.isSome_iff_exists.mp (List.getLast?_isSome.mpr hne)
      obtain ⟨p, hp⟩ := Option.isSome_iff_exists.mp (List.getLast?_isSome.mpr hne2)
      rw [hc, hp]
      simp [h2]

/-- C4 as stated is false: with two loaded entries both older than the cutoff
the remainder partition is empty, yet a comparison object is still returned. -/
theorem c4_counterexample :
    ((getIndexHistory 864000000000
        [⟨60, "Intermediate", ⟨50, 50, 50, 50, 50⟩, "stable", 864000000000 - 10 * dayMs, 5⟩,
         ⟨66, "Intermediate", ⟨50, 50, 50, 50, 50⟩, "stable", 864000000000 - 9 * dayMs, 6⟩]
        (7 * 2)).filter
      (fun e => decide (864000000000 - 7 * dayMs ≤ e.timestamp))) = [] ∧
    compareWithPrevious 864000000000
      [⟨60, "Intermediate", ⟨50, 50, 50, 50, 50⟩, "stable", 864000000000 - 10 * dayMs, 5⟩,
       ⟨66, "Intermediate", ⟨50, 50, 50, 50, 50⟩, "stable", 864000000000 - 9 * dayMs, 6⟩]
      7 ≠ none := by
  constructor
  · decide
  · decide

/-! ## C7: consistency is monotone in the number of recent workouts -/

theorem calculateStandardizedConsistency_eq (now : ℤ) (h : List Workout) :
    calculateStandardizedConsistency now h =
      (fun n : ℕ => if n < 3 then ((n : ℚ) / 3) * 10 else min 100 (((n : ℚ) / 30) * 100))
        (h.filter (fun w => timeGE (getWorkoutTime w) (now - 30 * dayMs))).length := rfl

theorem consistency_formula_mono (a b : ℕ) (hab : a ≤ b) :
    (if a < 3 then ((a : ℚ) / 3) * 10 else min 100 (((a : ℚ) / 30) * 100)) ≤
      (if b < 3 then ((b : ℚ) / 3) * 10 else min 100 (((b : ℚ) / 30) * 100)) := by
  have habQ : (a : ℚ) ≤ b := by exact_mod_cast hab
  by_cases h3 : a < 3
  · by_cases h4 : b < 3
    · simp only [if_pos h3, if_pos h4]
      linarith
    · simp only [if_pos h3, if_neg h4]
      have ha2 : (a : ℚ) ≤ 2 := by exact_mod_cast (by omega : a ≤ 2)
      have hb3 : (3 : ℚ) ≤ b := by exact_mod_cast (by omega : 3 ≤ b)
      have h10 : (10 : ℚ) ≤ min 100 (((b : ℚ) / 30) * 100) :=
        le_min (by norm_num) (by linarith)
      linarith
  · have h4 : ¬ b < 3 := by omega
    simp only [if_neg h3, if_neg h4]
    exact min_le_min (le_refl 100) (by linarith)

theorem consistency_le_of_count_le (now : ℤ) (h1 h2 : List Workout)
    (hle : (h1.filter (fun w => timeGE (getWorkoutTime w) (now - 30 * dayMs))).length ≤
           (h2.filter (fun w => timeGE (getWorkoutTime w) (now - 30 * dayMs))).length) :
    calculateStandardizedConsistency now h1 ≤ calculateStandardizedConsistency now h2 := by
  rw [calculateStandardizedConsistency_eq, calculateStandardizedConsistency_eq]
  exact consistency_formula_mono _ _ hle

/-- C7: adding further workout records dated within the last 30 days (holding
everything else fixed) never decreases the consistency score. -/
theorem c7_consistency_monotone (now : ℤ) (hist extra : List Workout)
    (_hne : extra ≠ [])
    (_hrec : ∀ w ∈ extra, timeGE (getWorkoutTime w) (now - 30 * dayMs) = true) :
    calculateStandardizedConsistency now hist ≤
      calculateStandardizedConsistency now (hist ++ extra) := by
  apply consistency_le_of_count_le
  rw [List.filter_append, List.length_append]
  omega

theorem c7_witness :
     (([{ timestamp := some 0 }] : List Workout) ≠ [] ∧
      ∀ w ∈ ([{ timestamp := some 0 }] : List Workout),
        timeGE (getWorkoutTime w) (0 - 30 * dayMs) = true) ∧
    calculateStandardizedConsistency 0 [] ≤
      calculateStandardizedConsistency 0 ([] ++ [{ timestamp := some 0 }]) :=
  ⟨⟨by simp, by decide⟩,
    c7_consistency_monotone 0 [] [{ timestamp := some 0 }] (by simp) (by decide)⟩

/-! ## C6: every invocation yields a complete, well-formed result -/

theorem components_in_range (cal : Calendar) (hist : List Workout) :
    ComponentsInRange (calculateStandardizedComponents cal hist) := by
  unfold calculateStandardizedComponents ComponentsInRange
  dsimp only
  refine ⟨⟨?_, ?_⟩, ⟨?_, ?_⟩, ⟨?_, ?_⟩, ⟨?_, ?_⟩, ⟨?_, ?_⟩⟩
  · exact_mod_cast jsRound_clamp100_nonneg (calculateStandardizedConsistency cal.now hist)
  · exact_mod_cast jsRound_clamp100_le (calculateStandardizedConsistency cal.now hist)
  · exact_mod_cast jsRound_clamp100_nonneg (calculateStandardizedPerformance hist)
  · exact_mod_cast jsRound_clamp100_le (calculateStandardizedPerformance hist)
  · exact_mod_cast jsRound_clamp100_nonneg (calculateStandardizedImprovement cal hist)
  · exact_mod_cast jsRound_clamp100_le (calculateStandardizedImprovement cal hist)
  · exact_mod_cast jsRound_clamp100_nonneg (calculateStandardizedVariety cal.now hist)
  · exact_mod_cast jsRound_clamp100_le (calculateStandardizedVariety cal.now hist)
  · exact_mod_cast jsRound_clamp100_nonneg (calculateStandardizedIntensity hist)
  · exact_mod_cast jsRound_clamp100_le (calculateStandardizedIntensity hist)

theorem score_nonneg (c : Components) : 0 ≤ calculateStandardizedScore c := by
  rw [calculateStandardizedScore_def]
  exact jsRound_clamp100_nonneg _

theorem score_le_100 (c : Components) : calculateStandardizedScore c ≤ 100 := by
  rw [calculateStandardizedScore_def]
  exact jsRound_clamp100_le _

theorem levelLookup_mem (ls : List PerfLevel) (s : ℤ) :
    levelLookup ls s = "New User" ∨ levelLookup ls s ∈ ls.map PerfLevel.level := by
  induction ls with
  | nil => exact Or.inl rfl
  | cons l rest ih =>
    unfold levelLookup
    by_cases h : l.min ≤ s ∧ s ≤ l.max
    · right
      simp [h]
    · rcases ih with h1 | h1
      · left
        simpa [h]
      · right
        simp [h, h1]

theorem level_mem (s : ℤ) :
    getStandardizedPerformanceLevel s ∈ performanceLevels.map PerfLevel.level := by
  rcases levelLookup_mem performanceLevels s with h | h
  · unfold getStandardizedPerformanceLevel
    rw [h]
    decide
  · exact h

theorem trend_mem (now : ℤ) (stored : List HistoryEntry) :
    calculateTrend now stored ∈ (["improving", "stable", "declining"] : List String) := by
  unfold calculateTrend
  dsimp only
  split_ifs <;> simp

/-- Well-formedness of a result object: score in [0,100] and mirrored into
`displayScore`, all five components in [0,100], the level one of the seven
labels, the trend one of the three trend tags. -/
def WellFormedIndex (r : IndexData) : Prop :=
  0 ≤ r.score ∧ r.score ≤ 100 ∧
  r.displayScore = r.score ∧
  ComponentsInRange r.components ∧
  r.level ∈ performanceLevels.map PerfLevel.level ∧
  r.trend ∈ (["improving", "stable", "declining"] : List String)

theorem defaultIndex_wf (now : ℤ) : WellFormedIndex (getDefaultIndex now) := by
  refine ⟨le_refl 0, by norm_num [getDefaultIndex], rfl,
    by norm_num [ComponentsInRange, getDefaultIndex], ?_, ?_⟩
  · show ("Getting Started" : String) ∈ performanceLevels.map PerfLevel.level
    decide
  · show ("stable" : String) ∈ (["improving", "stable", "declining"] : List String)
    decide

/-- C6: `calculateIndex` is a total function of its inputs — invalid or
missing workout data is absorbed by the documented defaults — and every
result it returns (including the default index of the validation-failure
path) is a complete, well-formed result object. -/
theorem c6_always_complete_result (cal : Calendar) (hist : List Workout)
    (stored : List HistoryEntry) :
    WellFormedIndex (calculateIndex cal hist stored) := by
  unfold calculateIndex
  by_cases hv : validateMetricInputs hist = true
  · simp only [hv, if_true]
    exact ⟨score_nonneg _, score_le_100 _, rfl, components_in_range cal hist,
      level_mem _, trend_mem _ _⟩
  · simp only [hv, if_false]
    exact defaultIndex_wf cal.now

/-! ## Lemmas about the day-map used by dedupeDailyEntries -/

theorem mem_dayMapSet (m : List (ℤ × HistoryEntry)) (k : ℤ) (v : HistoryEntry) :
    ∀ p ∈ dayMapSet m k v, p = (k, v) ∨ p ∈ m := by
  induction m with
  | nil =>
    intro p hp
    simp [dayMapSet] at hp
    exact Or.inl hp
  | cons q rest ih =>
    intro p hp
    obtain ⟨k', v'⟩ := q
    by_cases h : k' = k
    · simp [dayMapSet, h] at hp
      rcases hp with hp | hp
      · exact Or.inl (by simp [hp])
      · exact Or.inr (by simp [hp])
    · simp [dayMapSet, h] at hp
      rcases hp with hp | hp
      · exact Or.inr (by simp [hp])
      · rcases ih p hp with h1 | h1
        · exact Or.inl h1
        · exact Or.inr (by simp [h1])

theorem dayMapGet_none_iff (m : List (ℤ × HistoryEntry)) (k : ℤ) :
    dayMapGet m k = none ↔ k ∉ m.map Prod.fst := by
  induction m with
  | nil => simp [dayMapGet]
  | cons q rest ih =>
    obtain ⟨k', v'⟩ := q
    by_cases h : k' = k
    · simp [dayMapGet, h]
    · have hg : dayMapGet ((k', v') :: rest) k = dayMapGet rest k := by simp [dayMapGet, h]
      have hkk : ¬ k = k' := fun he => h he.symm
      rw [hg, ih]
      simp only [List.map_cons, List.mem_cons, not_or]
      tauto

theorem dayMapGet_some_mem {m : List (ℤ × HistoryEntry)} {k : ℤ} {v : HistoryEntry}
    (h : dayMapGet m k = some v) : k ∈ m.map Prod.fst := by
  by_contra hn
  rw [← dayMapGet_none_iff] at hn
  rw [h] at hn
  exact Option.noConfusion hn

theorem dayMapSet_map_fst (m : List (ℤ × HistoryEntry)) (k : ℤ) (v : HistoryEntry) :
    (dayMapSet m k v).map Prod.fst =
      if k ∈ m.map Prod.fst then m.map Prod.fst else m.map Prod.fst ++ [k] := by
  induction m with
  | nil => simp [dayMapSet]
  | cons q rest ih =>
    obtain ⟨k', v'⟩ := q
    by_cases h : k' = k
    · simp [dayMapSet, h]
    · have h2 : ¬ k = k' := fun he => h he.symm
      simp [dayMapSet, h, h2, ih]
      by_cases hm : k ∈ rest.map Prod.fst <;> simp [hm, h2]

/-! ## Invariants of the dedupe fold -/

theorem dedupeStep_inv (m : List (ℤ × HistoryEntry)) (e : HistoryEntry)
    (hday : ∀ p ∈ m, dayKey p.2.timestamp = p.1)
    (hnodup : (m.map Prod.fst).Nodup) :
    (∀ p ∈ dedupeStep m e, dayKey p.2.timestamp = p.1) ∧
    ((dedupeStep m e).map Prod.fst).Nodup := by
  simp only [dedupeStep]
  cases hget : dayMapGet m (dayKey e.timestamp) with
  | none =>
    constructor
    · intro p hp
      rcases mem_dayMapSet _ _ _ p hp with h1 | h1
      · rw [h1]
      · exact hday p h1
    · rw [dayMapSet_map_fst]
      have hnm : dayKey e.timestamp ∉ m.map Prod.fst := (dayMapGet_none_iff _ _).mp hget
      simp [hnm, List.nodup_append, hnodup]
  | some existing =>
    by_cases ht : existing.timestamp < e.timestamp
    · simp only [ht, if_true]
      constructor
      · intro p hp
        rcases mem_dayMapSet _ _ _ p hp with h1 | h1
        · rw [h1]
        · exact hday p h1
      · rw [dayMapSet_map_fst]
        have hm : dayKey e.timestamp ∈ m.map Prod.fst := dayMapGet_some_mem hget
        simp [hm, hnodup]
    · simp only [ht, if_false]
      exact ⟨hday, hnodup⟩

theorem foldl_dedupeStep_inv (l : List HistoryEntry) :
    ∀ m : List (ℤ × HistoryEntry),
      (∀ p ∈ m, dayKey p.2.timestamp = p.1) → (m.map Prod.fst).Nodup →
      (∀ p ∈ l.foldl dedupeStep m, dayKey p.2.timestamp = p.1) ∧
      ((l.foldl dedupeStep m).map Prod.fst).Nodup := by
  induction l with
  | nil => intro m h1 h2; exact ⟨h1, h2⟩
  | cons e rest ih =>
    intro m h1 h2
    rw [List.foldl_cons]
    obtain ⟨h1', h2'⟩ := dedupeStep_inv m e h1 h2
    exact ih _ h1' h2'

theorem foldl_dedupeStep_mem (l : List HistoryEntry) :
    ∀ (m : List (ℤ × HistoryEntry)) (e : HistoryEntry),
      e ∈ (l.foldl dedupeStep m).map Prod.snd → e ∈ m.map Prod.snd ∨ e ∈ l := by
  induction l with
  | nil => intro m e h; exact Or.inl h
  | cons a rest ih =>
    intro m e h
    rw [List.foldl_cons] at h
    rcases ih _ e h with h1 | h1
    · rw [List.mem_map] at h1
      obtain ⟨p, hp, hpe⟩ := h1
      simp only [dedupeStep] at hp
      have hcase : p = (dayKey a.timestamp, a) ∨ p ∈ m := by
        cases hget : dayMapGet m (dayKey a.timestamp) with
        | none =>
          rw [hget] at hp
          dsimp only at hp
          exact mem_dayMapSet _ _ _ p hp
        | some existing =>
          rw [hget] at hp
          dsimp only at hp
          by_cases ht : existing.timestamp < a.timestamp
          · rw [if_pos ht] at hp
            exact mem_dayMapSet _ _ _ p hp
          · rw [if_neg ht] at hp
            exact Or.inr hp
      rcases hcase with h2 | h2
      · right
        rw [h2] at hpe
        have he : a = e := hpe
        rw [← he]
        exact List.mem_cons_self a rest
      · left
        rw [← hpe]
        exact List.mem_map_of_mem Prod.snd h2
    · exact Or.inr (List.mem_cons_of_mem a h1)

theorem mem_dedupeDailyEntries {history : List HistoryEntry} {e : HistoryEntry}
    (h : e ∈ dedupeDailyEntries history) : e ∈ history := by
  unfold dedupeDailyEntries at h
  rw [List.mem_mergeSort] at h
  rcases foldl_dedupeStep_mem history [] e h with h1 | h1
  · simp at h1
  · exact h1

theorem dedupeDailyEntries_days_nodup (history : List HistoryEntry) :
    ((dedupeDailyEntries history).map (fun e => dayKey e.timestamp)).Nodup := by
  unfold dedupeDailyEntries
  obtain ⟨hday, hnodup⟩ :=
    foldl_dedupeStep_inv history [] (by simp) (by simp)
  have hperm := (List.mergeSort_perm ((history.foldl dedupeStep []).map Prod.snd)
    (fun a b => decide (a.timestamp ≤ b.timestamp))).map (fun e => dayKey e.timestamp)
  rw [List.Perm.nodup_iff hperm]
  rw [List.map_map]
  have heq : (history.foldl dedupeStep []).map ((fun e => dayKey e.timestamp) ∘ Prod.snd) =
      (history.foldl dedupeStep []).map Prod.fst :=
    List.map_congr_left (fun p hp => hday p hp)
  rw [heq]
  exact hnodup

theorem dedupeDailyEntries_nil : dedupeDailyEntries [] = [] := by
  simp [dedupeDailyEntries]

theorem dedupeDailyEntries_single (e : HistoryEntry) : dedupeDailyEntries [e] = [e] := by
  simp [dedupeDailyEntries, dedupeStep, dayMapGet, dayMapSet]

theorem dedupeDailyEntries_pair_same_day (e1 e2 : HistoryEntry)
    (hk : dayKey e1.timestamp = dayKey e2.timestamp) (ht : e1.timestamp < e2.timestamp) :
    dedupeDailyEntries [e1, e2] = [e2] := by
  simp [dedupeDailyEntries, dedupeStep, dayMapGet, dayMapSet, ← hk, ht]

/-! ## C9: retention of at most 90 days -/

/-- C9: after any append, every entry of the persisted list has a timestamp no
older than 90 days before the time of the append (the source in fact keeps
only entries strictly newer than the 90-day cutoff). -/
theorem c9_retention (now : ℤ) (stored : List HistoryEntry) (indexData : IndexData) :
    ∀ e ∈ saveToHistory now stored indexData, now - 90 * dayMs ≤ e.timestamp := by
  intro e he
  unfold saveToHistory at he
  have hmem := mem_dedupeDailyEntries he
  rw [List.mem_filter] at hmem
  have hc := of_decide_eq_true hmem.2
  have h90 : MAX_HISTORY_DAYS = 90 := rfl
  rw [h90] at hc
  exact le_of_lt hc

theorem c9_witness :
    historyEntryOf (getDefaultIndex 0) ∈ saveToHistory 0 [] (getDefaultIndex 0) ∧
    0 - 90 * dayMs ≤ (historyEntryOf (getDefaultIndex 0)).timestamp := by
  have hmem : historyEntryOf (getDefaultIndex 0) ∈ saveToHistory 0 [] (getDefaultIndex 0) := by
    unfold saveToHistory
    dsimp only
    norm_num [historyEntryOf, getDefaultIndex, MAX_HISTORY_DAYS, dayMs, List.filter_singleton,
      dedupeDailyEntries_single]
  exact ⟨hmem, c9_retention 0 [] (getDefaultIndex 0) _ hmem⟩

/-! ## C10: the persisted list is sorted by timestamp -/

/-- C10: after every append the persisted history list is ascending in
timestamp, whatever order the previously stored list had — the invariant the
trend computation relies on when it takes the most recent five entries with a
suffix slice. -/
theorem c10_sorted (now : ℤ) (stored : List HistoryEntry) (indexData : IndexData) :
    (saveToHistory now stored indexData).Pairwise (fun a b => a.timestamp ≤ b.timestamp) := by
  unfold saveToHistory dedupeDailyEntries
  have hs := @List.sorted_mergeSort HistoryEntry
    (fun a b : HistoryEntry => decide (a.timestamp ≤ b.timestamp))
    (fun a b c hab hbc => by
      simp only [decide_eq_true_eq] at *
      exact le_trans hab hbc)
    (fun a b => by
      simp only [Bool.or_eq_true, decide_eq_true_eq]
      exact le_total a.timestamp b.timestamp)
    ((((stored ++ [historyEntryOf indexData]).filter
      (fun e => decide (now - MAX_HISTORY_DAYS * dayMs < e.timestamp))).foldl
        dedupeStep []).map Prod.snd)
  exact hs.imp (fun h => of_decide_eq_true h)

/-! ## C8: at most one entry per calendar day, keeping the later one -/

/-- C8: (i) after every append the persisted list has pairwise-distinct
calendar-day keys, and (ii) appending two snapshots that fall on the same
calendar day (starting from an empty history) leaves exactly the entry with
the later timestamp, provided that entry is still inside the retention
window at the second append. -/
theorem c8_dedupe_daily :
    (∀ (now : ℤ) (stored : List HistoryEntry) (indexData : IndexData),
      ((saveToHistory now stored indexData).map (fun e => dayKey e.timestamp)).Nodup) ∧
    (∀ (now1 now2 : ℤ) (d1 d2 : IndexData),
      dayKey d1.lastUpdated = dayKey d2.lastUpdated →
      d1.lastUpdated < d2.lastUpdated →
      now2 - 90 * dayMs < d2.lastUpdated →
      saveToHistory now2 (saveToHistory now1 [] d1) d2 = [historyEntryOf d2]) := by
  constructor
  · intro now stored indexData
    unfold saveToHistory
    exact dedupeDailyEntries_days_nodup _
  · intro now1 now2 d1 d2 hk ht h90
    have hM : MAX_HISTORY_DAYS = (90 : ℤ) := rfl
    have hk' : dayKey (historyEntryOf d1).timestamp = dayKey (historyEntryOf d2).timestamp := hk
    have ht' : (historyEntryOf d1).timestamp < (historyEntryOf d2).timestamp := ht
    have h90' : now2 - MAX_HISTORY_DAYS * dayMs < (historyEntryOf d2).timestamp := by
      rw [hM]
      exact h90
    have hsave1 : saveToHistory now1 [] d1 =
        if now1 - MAX_HISTORY_DAYS * dayMs < (historyEntryOf d1).timestamp
          then [historyEntryOf d1] else [] := by
      unfold saveToHistory
      dsimp only
      by_cases hc : now1 - MAX_HISTORY_DAYS * dayMs < (historyEntryOf d1).timestamp
      · simp [List.filter_singleton, hc, dedupeDailyEntries_single]
      · simp [List.filter_singleton, hc, dedupeDailyEntries_nil]
    rw [hsave1]
    by_cases hc1 : now1 - MAX_HISTORY_DAYS * dayMs < (historyEntryOf d1).timestamp
    · rw [if_pos hc1]
      unfold saveToHistory
      dsimp only
      by_cases hc2 : now2 - MAX_HISTORY_DAYS * dayMs < (historyEntryOf d1).timestamp
      · rw [show ([historyEntryOf d1] ++ [historyEntryOf d2]) =
          [historyEntryOf d1, historyEntryOf d2] from rfl]
        rw [List.filter_cons, List.filter_cons, List.filter_nil]
        simp only [hc2, h90', decide_true_eq_true, decide_eq_true_eq, if_true]
        exact dedupeDailyEntries_pair_same_day _ _ hk' ht'
      · rw [show ([historyEntryOf d1] ++ [historyEntryOf d2]) =
          [historyEntryOf d1, historyEntryOf d2] from rfl]
        rw [List.filter_cons, List.filter_cons, List.filter_nil]
        simp only [hc2, h90', decide_eq_true_eq, if_true, if_false]
        exact dedupeDailyEntries_single _
    · rw [if_neg hc1]
      unfold saveToHistory
      dsimp only
      rw [show (([] : List HistoryEntry) ++ [historyEntryOf d2]) = [historyEntryOf d2] from rfl]
      rw [List.filter_cons, List.filter_nil]
      simp only [h90', decide_eq_true_eq, if_true]
      exact dedupeDailyEntries_single _

theorem c8_witness :
    (dayKey (getDefaultIndex 0).lastUpdated = dayKey (getDefaultIndex 1).lastUpdated ∧
     (getDefaultIndex 0).lastUpdated < (getDefaultIndex 1).lastUpdated ∧
     (1 : ℤ) - 90 * dayMs < (getDefaultIndex 1).lastUpdated) ∧
    saveToHistory 1 (saveToHistory 0 [] (getDefaultIndex 0)) (getDefaultIndex 1) =
      [historyEntryOf (getDefaultIndex 1)] :=
  ⟨⟨by decide, by decide, by decide⟩,
    c8_dedupe_daily.2 0 1 (getDefaultIndex 0) (getDefaultIndex 1)
      (by decide) (by decide) (by decide)⟩
